import Mathlib

/-!
Verification of the IDA worker-pool manager (`start_ida_server.py`, with the
port-range helper from `config.py` and the worker-side request handler from
`ida_decompile_server.py`), as a shallow embedding in Lean 4.

Modelling conventions:
* Python dicts become insertion-ordered association lists with unique keys
  (`ainsert` updates in place or appends, like dict assignment; `aerase`
  mirrors `del`).
* `time.time()` is modelled as a single natural-number snapshot per top-level
  call (all timestamps taken during one call are equal; within one call the
  real elapsed time is far below the 60 s reservation TTL, so purge decisions
  agree with the code).
* The external world (filesystem, OS port occupancy, handshake outcomes,
  signal-delivery errors) is supplied by explicit oracle records.
* `threading.Lock` is non-reentrant, so acquiring it while it is already held
  by the same thread blocks forever.  Operations that take the lock receive a
  `lockHeld` flag; a nested acquire produces the `Res.deadlock` outcome.
* Spawned OS processes are identified by a fresh `pid` counter; observable
  side effects (spawn, rename, terminate, signals) are recorded in an event
  trace.
-/

/-- Membership-based update of an association list: mirrors Python
`d[k] = v` (update in place if the key exists, else append). -/
def ainsert {β : Type} (l : List (Nat × β)) (k : Nat) (v : β) : List (Nat × β) :=
  if (l.find? (fun e => e.1 == k)).isSome then
    l.map (fun e => if e.1 == k then (k, v) else e)
  else
    l ++ [(k, v)]

/-- Mirrors Python `del d[k]` (no-op when the key is absent, which in the
modelled code paths only happens guarded by a membership test). -/
def aerase {β : Type} (l : List (Nat × β)) (k : Nat) : List (Nat × β) :=
  l.filter (fun e => !(e.1 == k))

/-- Mirrors Python `d.get(k)`. -/
def alookup {β : Type} (l : List (Nat × β)) (k : Nat) : Option β :=
  (l.find? (fun e => e.1 == k)).map (fun e => e.2)

/-! ## config.py -/

def FLASK_PORT : Nat := 5001
def IDA_CLIENT_PORT : Nat := 6001
def IDA_SERVER_START_PORT : Nat := 7001

/-- `IDA_SERVER_PORT_RANGE = (IDA_SERVER_START_PORT, IDA_SERVER_START_PORT + 99)` -/
def IDA_SERVER_PORT_RANGE : Nat × Nat := (IDA_SERVER_START_PORT, IDA_SERVER_START_PORT + 99)

/-- `config.get_ida_server_ports(count)`:
`list(range(RANGE[0], min(RANGE[0] + count, RANGE[1] + 1)))`. -/
def get_ida_server_ports (count : Nat) : List Nat :=
  List.range' IDA_SERVER_PORT_RANGE.1
    (min (IDA_SERVER_PORT_RANGE.1 + count) (IDA_SERVER_PORT_RANGE.2 + 1) -
      IDA_SERVER_PORT_RANGE.1)

/-! ## Data model (`IDAProcess`, manager state, external world) -/

/-- `IDAProcess`: the per-worker record (`process` handle is modelled by its
pid; `last_used = time.time()` at construction). -/
structure IDAProcess where
  pid : Nat
  port : Nat
  binary_path : Option String
  last_used : Nat
deriving Repr, DecidableEq

/-- The mutable bookkeeping state of `IDAServerManager`:
`ida_processes : Dict[int, IDAProcess]` and
`reserved_ports : Dict[int, float]`. -/
structure ManagerState where
  max_processes : Nat
  ida_processes : List (Nat × IDAProcess)
  reserved_ports : List (Nat × Nat)
deriving Repr, DecidableEq

/-- The part of the external world the manager reads and writes:
the set of existing filesystem paths and a fresh-pid / spawn counter. -/
structure World where
  fs : List String
  nextPid : Nat
  spawnCount : Nat
deriving Repr, DecidableEq

/-- `os.path.exists` -/
def fsExists (w : World) (path : String) : Bool :=
  w.fs.contains path

/-- Observable side effects on the OS, in order of occurrence. -/
inductive Event where
  | spawn (pid : Nat) (command : String)
  | renameFile (src dst : String)
  | terminate (pid : Nat)
  | sendStop (port : Nat)
  | sigterm (pid : Nat)
  | sigkill (pid : Nat)
  | forceRelease (port : Nat)
deriving Repr, DecidableEq

/-- Outcome of an operation that may block forever on a nested acquire of the
manager's non-reentrant `threading.Lock`. -/
inductive Res (α : Type) where
  | ok (a : α)
  | deadlock
deriving Repr, DecidableEq

/-! ## Oracles for the external world -/

/-- Oracle for one `stop_ida_server` call (POSIX branch, `os.name != 'nt'`):
whether `process.poll()` still reports the process alive after the 2 s grace
sleep, whether the `os.kill` calls raise `OSError`, whether `process.wait(5)`
returns within its timeout, and whether `_wait_for_port_release` succeeds. -/
structure StopEnv where
  aliveAfterGrace : Nat → Bool
  sigtermRaises : Nat → Bool
  termWithinTimeout : Nat → Bool
  sigkillRaises : Nat → Bool
  portReleases : Nat → Bool

/-! ## `IDAServerManager.stop_ida_server` (lines 329-369) -/

/-- Common tail of `stop_ida_server`: wait for the port to be released
(forcing reclamation on timeout), then `del self.ida_processes[port]`. -/
def finishStop (senv : StopEnv) (st : ManagerState) (port : Nat) (evs : List Event) :
    Res (ManagerState × List Event) :=
  let evs := if senv.portReleases port then evs else evs ++ [Event.forceRelease port]
  Res.ok ({ st with ida_processes := aerase st.ida_processes port }, evs)

/-- `IDAServerManager.stop_ida_server(port)`.  The body runs under
`with self.lock`; if the caller already holds the lock the nested acquire of
the non-reentrant `threading.Lock` blocks forever (`Res.deadlock`).
If an `os.kill` raises, the `except` clause at the end of the method only
force-releases the port: the `del self.ida_processes[port]` is skipped. -/
def stop_ida_server (senv : StopEnv) (lockHeld : Bool) (st : ManagerState) (port : Nat) :
    Res (ManagerState × List Event) :=
  if lockHeld then Res.deadlock
  else
    match alookup st.ida_processes port with
    | none => Res.ok (st, [])
    | some p =>
      let evs := [Event.sendStop port]
      if senv.aliveAfterGrace p.pid then
        let evs := evs ++ [Event.sigterm p.pid]
        if senv.sigtermRaises p.pid then
          -- exception caught by `except Exception`: entry NOT removed
          Res.ok (st, evs ++ [Event.forceRelease port])
        else if senv.termWithinTimeout p.pid then
          finishStop senv st port evs
        else
          let evs := evs ++ [Event.sigkill p.pid]
          if senv.sigkillRaises p.pid then
            Res.ok (st, evs ++ [Event.forceRelease port])
          else finishStop senv st port evs
      else finishStop senv st port evs

/-- `IDAServerManager.stop_all_servers`: iterate over a snapshot of the pool's
ports, stopping each. -/
def stop_all_go (senv : StopEnv) : List Nat → ManagerState → List Event →
    Res (ManagerState × List Event)
  | [], st, evs => Res.ok (st, evs)
  | p :: ps, st, evs =>
    match stop_ida_server senv false st p with
    | Res.deadlock => Res.deadlock
    | Res.ok (st', e) => stop_all_go senv ps st' (evs ++ e)

def stop_all_servers (senv : StopEnv) (st : ManagerState) : Res (ManagerState × List Event) :=
  stop_all_go senv (st.ida_processes.map (fun e => e.1)) st []

/-! ## `IDAServerManager._find_available_port` (lines 85-116) -/

structure PortEnv where
  now : Nat
  osPortInUse : Nat → Bool

/-- Result of `_find_available_port`: a reserved port (`found`), the
`RuntimeError` raised when the range is exhausted below capacity
(`exhausted`), the `TypeError` from unpacking `None` when the pool is empty
with `max_processes = 0` (`typeError`), or the nested-lock deadlock of the
eviction path (`deadlock`). -/
inductive PortResult where
  | found (port : Nat)
  | exhausted
  | typeError
  | deadlock
deriving Repr, DecidableEq

/-- Drop reservations strictly older than the 60 s TTL
(`current_time - reserve_time > 60`). -/
def purgeExpired (now : Nat) (reserved : List (Nat × Nat)) : List (Nat × Nat) :=
  reserved.filter (fun e => !(now - e.2 > 60 : Bool))

/-- `used_ports = set(self.ida_processes.keys()) | set(self.reserved_ports.keys())` -/
def usedPorts (st : ManagerState) : List Nat :=
  st.ida_processes.map (fun e => e.1) ++ st.reserved_ports.map (fun e => e.1)

/-- `min(self.ida_processes.items(), key=lambda x: x[1].last_used)`:
first minimal element in iteration order (Python `min` keeps the earliest of
ties). -/
def minByLastUsed : List (Nat × IDAProcess) → Option (Nat × IDAProcess)
  | [] => none
  | x :: xs =>
    some (xs.foldl (fun acc y => if y.2.last_used < acc.2.last_used then y else acc) x)

/-- The ascending scan of `_find_available_port` (lines 101-106): the first
port of the configured range that is neither used/reserved nor bound at the
OS level. -/
def find_scan (penv : PortEnv) (st1 : ManagerState) : Option Nat :=
  (get_ida_server_ports st1.max_processes).find?
    (fun p => !((usedPorts st1).contains p) && !(penv.osPortInUse p))

/-- Lines 108-116 of `_find_available_port`: the eviction fallback taken when
the scan found nothing.  It runs with `self.lock` still held, so the
`stop_ida_server` call inside deadlocks on the nested acquire; the code after
it (reserve and return the LRU port) is unreachable. -/
def find_fallback (penv : PortEnv) (senv : StopEnv) (st1 : ManagerState) :
    PortResult × ManagerState :=
  if st1.ida_processes.length ≥ st1.max_processes then
    match minByLastUsed st1.ida_processes with
    | none => (PortResult.typeError, st1)
    | some (lruPort, _) =>
      match stop_ida_server senv true st1 lruPort with
      | Res.deadlock => (PortResult.deadlock, st1)
      | Res.ok (st2, _) =>
        (PortResult.found lruPort,
          { st2 with reserved_ports := ainsert st2.reserved_ports lruPort penv.now })
  else (PortResult.exhausted, st1)

/-- `IDAServerManager._find_available_port(base_port)` (the `base_port`
argument is unused by the body).  The whole body runs inside
`with self.lock`. -/
def find_available_port (penv : PortEnv) (senv : StopEnv) (lockHeld : Bool)
    (st : ManagerState) : PortResult × ManagerState :=
  if lockHeld then (PortResult.deadlock, st)
  else
    let st1 : ManagerState := { st with reserved_ports := purgeExpired penv.now st.reserved_ports }
    (find_scan penv st1).elim (find_fallback penv senv st1)
      (fun p =>
        (PortResult.found p, { st1 with reserved_ports := ainsert st1.reserved_ports p penv.now }))

/-! ## Worker spawn command (`_ensure_binary_loaded`, lines 249-270) -/

/-- The literal argument list built at lines 249-256:
`[ida_path, "-A", "-B", f"-S\"{script} {port}\"", "-L\"ida_server.log\"", f"\"{load_path}\""]`. -/
def build_ida_cmd (idaPath scriptPath : String) (port : Nat) (loadPath : String) :
    List String :=
  [idaPath, "-A", "-B",
   "-S\"" ++ scriptPath ++ " " ++ toString port ++ "\"",
   "-L\"ida_server.log\"",
   "\"" ++ loadPath ++ "\""]

/-- `cmd = [arg for arg in cmd if arg]` (drops empty strings). -/
def filtered_ida_cmd (idaPath scriptPath : String) (port : Nat) (loadPath : String) :
    List String :=
  (build_ida_cmd idaPath scriptPath port loadPath).filter (fun s => !(s == ""))

/-- What is actually handed to the OS: `subprocess.Popen(' '.join(cmd), shell=True, ...)`. -/
structure SpawnCall where
  command : String
  useShell : Bool
deriving Repr, DecidableEq

def ida_spawn_call (idaPath scriptPath : String) (port : Nat) (loadPath : String) :
    SpawnCall :=
  { command := String.intercalate " " (filtered_ida_cmd idaPath scriptPath port loadPath),
    useShell := true }

/-! ## `IDAServerManager._ensure_binary_loaded` (lines 215-327) -/

/-- Environment for one top-level `_ensure_binary_loaded` call.
`handshake i` is the outcome of `_wait_for_ida_server` for the `i`-th spawn
of the run (`i` = the world's spawn counter); `renameOk` is whether
`os.rename(idb_path, idb_path + ".bak")` succeeds. -/
structure EnsureEnv where
  now : Nat
  osPortInUse : Nat → Bool
  handshake : Nat → Bool
  renameOk : Bool
  stopEnv : StopEnv

/-- Which `return None` path was taken (the Python caller only sees `None`;
the constructors record which failure produced it). -/
inductive FailKind where
  | fileNotFound
  | portUnavailable
  | startupTimeout
  | internalError
deriving Repr, DecidableEq

inductive EnsureOutcome where
  | success (p : IDAProcess)
  | failure (k : FailKind)
  | deadlock
deriving Repr, DecidableEq

/-- `IDAServerManager._get_process_for_binary`: first pool value whose
`binary_path` matches. -/
def get_process_for_binary (st : ManagerState) (binary : String) : Option IDAProcess :=
  (st.ida_processes.map (fun e => e.2)).find? (fun p => p.binary_path == some binary)

/-- The fast path `existing_process.last_used = time.time()` mutates the first
matching value in place, leaving every other entry untouched. -/
def refresh_binary_proc (now : Nat) : List (Nat × IDAProcess) → String →
    List (Nat × IDAProcess)
  | [], _ => []
  | (k, p) :: rest, binary =>
    if p.binary_path == some binary then (k, { p with last_used := now }) :: rest
    else (k, p) :: refresh_binary_proc now rest binary

/-- `os.rename(src, dst)` on the modelled filesystem. -/
def fsRename (w : World) (src dst : String) : World :=
  { w with fs := (w.fs.filter (fun f => !(f == src))) ++ [dst] }

/-- Result of one spawn attempt of `_ensure_binary_loaded`: either a final
answer, or the decision (lines 279-290) to quarantine the database and
recursively retry on the recorded world/state. -/
inductive AttemptRes where
  | done (r : EnsureOutcome × ManagerState × World × List Event)
  | retry (w2 : World) (st1 : ManagerState) (evs : List Event)
deriving Repr, DecidableEq

/-- Lines 236-316 of `_ensure_binary_loaded`: spawn the worker on the
reserved `port`, wait for the readiness handshake, and on failure either
quarantine the `.i64` database and signal a retry, or terminate the process,
release the reservation and fail with the startup-timeout `RuntimeError`.
NOTE (lines 281-290): the quarantine path does NOT release the reservation
for `port` before retrying. -/
def ensure_spawn (eenv : EnsureEnv) (idaPath scriptPath : String) (w : World)
    (st1 : ManagerState) (binary : String) (port : Nat) : AttemptRes :=
  let idb := binary ++ ".i64"
  let use_idb := fsExists w idb
  let spawn := ida_spawn_call idaPath scriptPath port binary
  let pid := w.nextPid
  let attempt := w.spawnCount
  let w1 : World := { w with nextPid := pid + 1, spawnCount := attempt + 1 }
  let proc : IDAProcess :=
    { pid := pid, port := port, binary_path := some binary, last_used := eenv.now }
  let evs := [Event.spawn pid spawn.command]
  if eenv.handshake attempt then
    -- lines 308-313: promote to active, clear the reservation
    AttemptRes.done (EnsureOutcome.success proc,
      { st1 with
          ida_processes := ainsert st1.ida_processes port proc,
          reserved_ports := aerase st1.reserved_ports port },
      w1, evs)
  else if use_idb then
    if eenv.renameOk then
      AttemptRes.retry (fsRename w1 idb (idb ++ ".bak")) st1
        (evs ++ [Event.renameFile idb (idb ++ ".bak"), Event.terminate pid])
    else
      -- rename raised (lines 291-292): fall through to the common
      -- failure path (terminate, release reservation, raise)
      AttemptRes.done (EnsureOutcome.failure FailKind.startupTimeout,
        { st1 with reserved_ports := aerase st1.reserved_ports port },
        w1, evs ++ [Event.terminate pid])
  else
    -- lines 294-306
    AttemptRes.done (EnsureOutcome.failure FailKind.startupTimeout,
      { st1 with reserved_ports := aerase st1.reserved_ports port },
      w1, evs ++ [Event.terminate pid])

/-- One pass of `_ensure_binary_loaded` up to the point where it either
returns, raises, or decides to retry recursively. -/
def ensure_attempt (eenv : EnsureEnv) (idaPath scriptPath : String) (w : World)
    (st : ManagerState) (binary : String) : AttemptRes :=
  -- line 219: neither the binary nor its IDA database exists
  if !(fsExists w binary) && !(fsExists w (binary ++ ".i64")) then
    AttemptRes.done (EnsureOutcome.failure FailKind.fileNotFound, st, w, [])
  else
    match get_process_for_binary st binary with
    | some p =>
      -- idempotent fast path (lines 224-227)
      AttemptRes.done (EnsureOutcome.success { p with last_used := eenv.now },
        { st with ida_processes := refresh_binary_proc eenv.now st.ida_processes binary },
        w, [])
    | none =>
      match find_available_port ⟨eenv.now, eenv.osPortInUse⟩ eenv.stopEnv false st with
      | (PortResult.deadlock, st1) => AttemptRes.done (EnsureOutcome.deadlock, st1, w, [])
      | (PortResult.typeError, st1) =>
        -- TypeError escapes the `except RuntimeError` and hits the outer handler
        AttemptRes.done (EnsureOutcome.failure FailKind.internalError, st1, w, [])
      | (PortResult.exhausted, st1) =>
        -- lines 232-234: RuntimeError caught, return None
        AttemptRes.done (EnsureOutcome.failure FailKind.portUnavailable, st1, w, [])
      | (PortResult.found port, st1) => ensure_spawn eenv idaPath scriptPath w st1 binary port

/-- `IDAServerManager._ensure_binary_loaded(binary_path, base_port)`
(`base_port` is unused by the body; `_find_available_port` ignores it).

The corrupted-database path (line 290) recursively re-invokes the method
after renaming the `.i64` aside; the recursion is modelled with explicit
fuel.  Fuel 2 suffices on every reachable input (after a successful rename
the database file no longer exists, so the retry cannot take the rename
branch again); running out of fuel yields `failure internalError`. -/
def ensure_binary_loaded (eenv : EnsureEnv) (idaPath scriptPath : String) :
    Nat → World → ManagerState → String →
    EnsureOutcome × ManagerState × World × List Event
  | 0, w, st, _ => (EnsureOutcome.failure FailKind.internalError, st, w, [])
  | fuel + 1, w, st, binary =>
    match ensure_attempt eenv idaPath scriptPath w st binary with
    | AttemptRes.done r => r
    | AttemptRes.retry w2 st1 evs =>
      let r := ensure_binary_loaded eenv idaPath scriptPath fuel w2 st1 binary
      (r.1, r.2.1, r.2.2.1, evs ++ r.2.2.2)

/-! ## JSON response model and `_send_ida_request` (lines 118-166) -/

/-- JSON values as far as the protocol envelopes need them; action-specific
structured payloads (function objects, function lists) are abstracted as
`payload`. -/
inductive JVal where
  | s (v : String)
  | b (v : Bool)
  | payload (tag : Nat)
deriving Repr, DecidableEq

/-- A JSON object: ordered key/value pairs. -/
def JObj : Type := List (String × JVal)

instance : DecidableEq JObj := by
  unfold JObj
  infer_instance

instance : Repr JObj := by
  unfold JObj
  infer_instance

def jlookup (o : JObj) (k : String) : Option JVal :=
  (o.find? (fun e => e.1 == k)).map (fun e => e.2)

/-- "the response carries a boolean `success` field" -/
def hasSuccessBool (o : JObj) : Bool :=
  match jlookup o "success" with
  | some (JVal.b _) => true
  | _ => false

/-- "the response carries `success:true`, or a non-empty `error` string" -/
def goodResp (o : JObj) : Bool :=
  (jlookup o "success" == some (JVal.b true)) ||
  (match jlookup o "error" with
   | some (JVal.s m) => !(m == "")
   | _ => false)

/-- Connection-level outcome of one `_send_ida_request` exchange. -/
inductive ConnOutcome where
  | ok (resp : JObj)            -- response parsed
  | socketError (msg : String)  -- `except socket.error`
  | emptyData                   -- no bytes received
  | badJson (msg : String)      -- `json.JSONDecodeError`
  | recvTimeout (msg : String)  -- `socket.timeout` → `Exception("接收数据超时")`
deriving Repr, DecidableEq

/-- `IDAServerManager._send_ida_request`: every transport failure is caught
and turned into a dict; the function never raises. -/
def send_ida_request (c : ConnOutcome) : JObj :=
  match c with
  | ConnOutcome.ok r => r
  | ConnOutcome.socketError m => [("error", JVal.s ("网络错误: " ++ m))]
  | ConnOutcome.emptyData => [("error", JVal.s "服务器没有返回数据")]
  | ConnOutcome.badJson m => [("error", JVal.s ("解析响应失败: " ++ m))]
  | ConnOutcome.recvTimeout m => [("error", JVal.s ("与IDA服务器通信失败: " ++ m))]

/-! ## `IDAServerManager.handle_client_request` (lines 377-405) -/

structure Request where
  action : Option String
  binary_path : Option String
  address : Option String
deriving Repr, DecidableEq

def optActionText : Option String → String
  | none => "None"
  | some a => a

/-- `IDAServerManager.handle_client_request(request, base_port)`. -/
def handle_client_request (eenv : EnsureEnv) (conn : ConnOutcome)
    (idaPath scriptPath : String) (fuel : Nat) (st : ManagerState) (w : World)
    (req : Request) : Res (JObj × ManagerState × World × List Event) :=
  if req.action == some "stop_server" then
    match stop_all_servers eenv.stopEnv st with
    | Res.deadlock => Res.deadlock
    | Res.ok (st', evs) =>
      Res.ok ([("success", JVal.b true), ("message", JVal.s "所有服务器已停止")], st', w, evs)
  else
    match req.binary_path with
    | none => Res.ok ([("error", JVal.s "未指定二进制文件路径")], st, w, [])
    | some bp =>
      match ensure_binary_loaded eenv idaPath scriptPath fuel w st bp with
      | (EnsureOutcome.deadlock, _, _, _) => Res.deadlock
      | (EnsureOutcome.failure _, st', w', evs) =>
        Res.ok ([("error", JVal.s "无法加载指定的二进制文件")], st', w', evs)
      | (EnsureOutcome.success _p, st', w', evs) =>
        if req.action == some "decompile_function" || req.action == some "get_functions" then
          Res.ok (send_ida_request conn, st', w', evs)
        else
          Res.ok ([("error", JVal.s ("未知的操作: " ++ optActionText req.action))], st', w', evs)

/-! ## Worker-side request handler (`ida_decompile_server.py`, lines 110-134) -/

/-- Oracle for one worker `handle_request` call: the abstract outcomes of the
IDA API calls and of `int(address, 16)` parsing. -/
structure WorkerEnv where
  parseExc : Option String   -- `int(request.get('address'), 16)` raised, with str(e)
  hexraysOk : Bool
  funcFound : Bool
  decompileOk : Bool
  listExc : Option String    -- exception inside get_function_list, with str(e)
  addrText : String          -- f"0x{func_addr:x}"
  payloadTag : Nat           -- abstract action-specific payload

/-- `IDAAnalysisServer.handle_request`. -/
def worker_handle_request (wenv : WorkerEnv) (req : Request) : JObj :=
  match req.action with
  | some "hello" => [("success", JVal.b true), ("message", JVal.s "hi")]
  | some "decompile_function" =>
    match wenv.parseExc with
    | some m => [("error", JVal.s ("处理请求时发生错误: " ++ m))]
    | none =>
      if !wenv.hexraysOk then [("error", JVal.s "Hex-Rays反编译器不可用")]
      else if !wenv.funcFound then
        [("error", JVal.s ("地址 " ++ wenv.addrText ++ " 处未找到函数"))]
      else if !wenv.decompileOk then
        [("error", JVal.s ("函数 " ++ wenv.addrText ++ " 反编译失败"))]
      else [("success", JVal.b true), ("function", JVal.payload wenv.payloadTag)]
  | some "get_functions" =>
    match wenv.listExc with
    | some m => [("error", JVal.s ("获取函数列表失败: " ++ m))]
    | none => [("success", JVal.b true), ("functions", JVal.payload wenv.payloadTag)]
  | some "stop_server" => [("success", JVal.b true), ("message", JVal.s "正在停止服务器")]
  | a => [("error", JVal.s ("未知的操作: " ++ optActionText a))]

/-! ## Invariant of the pool/reservation bookkeeping -/

def pkeys (l : List (Nat × IDAProcess)) : List Nat := l.map (fun e => e.1)

def rkeys (l : List (Nat × Nat)) : List Nat := l.map (fun e => e.1)

def targets (l : List (Nat × IDAProcess)) : List (Option String) :=
  l.map (fun e => e.2.binary_path)

/-- The structural invariant: at most one worker per port, at most one
reservation per port, no port simultaneously reserved and active, and no two
active workers bound to the same target. -/
def PoolInv (st : ManagerState) : Prop :=
  (pkeys st.ida_processes).Nodup ∧
  (rkeys st.reserved_ports).Nodup ∧
  (∀ q ∈ pkeys st.ida_processes, q ∉ rkeys st.reserved_ports) ∧
  (targets st.ida_processes).Nodup

instance (st : ManagerState) : Decidable (PoolInv st) := by
  unfold PoolInv
  infer_instance

/-! ## Concrete instances used by counterexamples and witnesses -/

/-- A benign stop-oracle: the worker exits within the grace window, no signal
call raises, and the OS confirms the port free. -/
def seNice : StopEnv :=
  ⟨fun _ => false, fun _ => false, fun _ => true, fun _ => false, fun _ => true⟩

/-- A stop-oracle where the worker survives the grace window and the SIGTERM
`os.kill` raises `OSError`. -/
def seRaise : StopEnv :=
  ⟨fun _ => true, fun _ => true, fun _ => true, fun _ => false, fun _ => true⟩

def peC2 : PortEnv := ⟨100, fun _ => false⟩

def procA : IDAProcess := ⟨1, 7001, some "/bins/A", 10⟩

def procB : IDAProcess := ⟨2, 7002, some "/bins/B", 20⟩

/-- A pool at capacity (`max_processes = 2`) with both range ports active. -/
def stFull : ManagerState := ⟨2, [(7001, procA), (7002, procB)], []⟩

def stEmpty : ManagerState := ⟨2, [], []⟩

def stOne : ManagerState := ⟨2, [(7001, procA)], []⟩

def pC8 : IDAProcess := ⟨9, 7002, some "/bins/C", 5⟩

def stC8 : ManagerState := ⟨2, [(7002, pC8)], []⟩

/-- Environment where every readiness handshake fails and the quarantine
rename succeeds. -/
def eenvFail : EnsureEnv :=
  { now := 100, osPortInUse := fun _ => false, handshake := fun _ => false,
    renameOk := true, stopEnv := seNice }

/-- Environment where every readiness handshake succeeds. -/
def eenvOk : EnsureEnv :=
  { now := 100, osPortInUse := fun _ => false, handshake := fun _ => true,
    renameOk := true, stopEnv := seNice }

/-- Filesystem holding a target binary and its IDA database. -/
def wC3 : World := ⟨["/t/x", "/t/x.i64"], 0, 0⟩

/-- Filesystem holding only the already-analyzed target of `stOne`. -/
def wA : World := ⟨["/bins/A"], 5, 1⟩

def wEmptyFS : World := ⟨[], 0, 0⟩

/-- A request with an action but no `binary_path`. -/
def reqNoBin : Request := ⟨some "decompile_function", none, none⟩

def reqStop : Request := ⟨some "stop_server", none, none⟩

/-- Intermediate states of the failing quarantine-retry run started from
`stEmpty` / `wC3`: after the first reservation, and after the second. -/
def st1C3 : ManagerState := ⟨2, [], [(7001, 100)]⟩

def st2C3 : ManagerState := ⟨2, [], [(7001, 100), (7002, 100)]⟩

/-! ## General helper lemmas -/

theorem append_left_ne_empty (s t : String) (h : s ≠ "") : s ++ t ≠ "" := by
  intro hc
  have hl : (s ++ t).length = 0 := by rw [hc]; rfl
  rw [String.length_append] at hl
  have h0 : s.length = 0 := by omega
  apply h
  cases s with
  | mk data =>
    cases data with
    | nil => rfl
    | cons a as => simp [String.length] at h0

theorem self_ne_append (s t : String) (ht : t ≠ "") : s ≠ s ++ t := by
  intro h
  have h2 := congrArg String.length h
  rw [String.length_append] at h2
  have h3 : t.length = 0 := by omega
  apply ht
  cases t with
  | mk data =>
    cases data with
    | nil => rfl
    | cons a as => simp [String.length] at h3

theorem beq_eq_false_of_ne {α : Type} [BEq α] [LawfulBEq α] {a b : α} (h : a ≠ b) :
    (a == b) = false := by
  simpa using h

/-- A nested acquire of the already-held non-reentrant lock blocks forever. -/
theorem stop_ida_server_locked (senv : StopEnv) (st : ManagerState) (port : Nat) :
    stop_ida_server senv true st port = Res.deadlock := rfl

/-! ## C7: how the worker process is launched -/

/-- When no argument is the empty string, the `[arg for arg in cmd if arg]`
filter keeps the whole argument list. -/
theorem filtered_ida_cmd_eq (idaPath scriptPath : String) (port : Nat) (loadPath : String)
    (h : idaPath ≠ "") :
    filtered_ida_cmd idaPath scriptPath port loadPath =
      build_ida_cmd idaPath scriptPath port loadPath := by
  have h1 : (idaPath == "") = false := beq_eq_false_of_ne h
  have h2 : (("-S\"" ++ scriptPath ++ " " ++ toString port ++ "\"") == "") = false :=
    beq_eq_false_of_ne
      (append_left_ne_empty ("-S\"" ++ scriptPath ++ " " ++ toString port) "\""
        (append_left_ne_empty ("-S\"" ++ scriptPath ++ " ") (toString port)
          (append_left_ne_empty ("-S\"" ++ scriptPath) " "
            (append_left_ne_empty "-S\"" scriptPath (by decide)))))
  have h3 : (("\"" ++ loadPath ++ "\"") == "") = false :=
    beq_eq_false_of_ne
      (append_left_ne_empty ("\"" ++ loadPath) "\""
        (append_left_ne_empty "\"" loadPath (by decide)))
  unfold filtered_ida_cmd build_ida_cmd
  simp [List.filter, h1, h2, h3]

/-- C7, counterexample: as built (lines 249-270), the launch joins the
argument list into one string and passes it to `subprocess.Popen` with
`shell=True`.  The claim that the port and target are passed "in a structured
argument list, never through shell interpolation" is therefore false on the
code: at this concrete input the spawn call is a single shell-interpolated
command string. -/
theorem spawn_uses_shell_cex :
    (ida_spawn_call "/opt/ida/idat" "/srv/ida_decompile_server.py" 7001
        "/tmp/sample.bin").useShell = true ∧
    (ida_spawn_call "/opt/ida/idat" "/srv/ida_decompile_server.py" 7001
        "/tmp/sample.bin").command =
      "/opt/ida/idat -A -B -S\"/srv/ida_decompile_server.py 7001\" -L\"ida_server.log\" \"/tmp/sample.bin\"" := by
  exact ⟨rfl, rfl⟩

/-- C7, amended: the worker launch builds the argument list
`[ida_path, "-A", "-B", "-S\"<script> <port>\"", "-L\"ida_server.log\"", "\"<target>\""]`
but then hands the OS the single space-joined command string with
`shell=True`; the port and target path reach the process through shell
interpolation of that concatenated string. -/
theorem spawn_shell_joined_command_amended (idaPath scriptPath : String) (port : Nat)
    (loadPath : String) (h : idaPath ≠ "") :
    ida_spawn_call idaPath scriptPath port loadPath =
      { command := idaPath ++ " " ++ "-A" ++ " " ++ "-B" ++ " " ++
          ("-S\"" ++ scriptPath ++ " " ++ toString port ++ "\"") ++ " " ++
          "-L\"ida_server.log\"" ++ " " ++ ("\"" ++ loadPath ++ "\""),
        useShell := true } := by
  unfold ida_spawn_call
  rw [filtered_ida_cmd_eq _ _ _ _ h]
  rfl

theorem spawn_shell_joined_command_amended_witness :
    ("/opt/ida/idat" : String) ≠ "" ∧
    ida_spawn_call "/opt/ida/idat" "/srv/s.py" 7002 "/tmp/b.bin" =
      { command := "/opt/ida/idat" ++ " " ++ "-A" ++ " " ++ "-B" ++ " " ++
          ("-S\"" ++ "/srv/s.py" ++ " " ++ toString 7002 ++ "\"") ++ " " ++
          "-L\"ida_server.log\"" ++ " " ++ ("\"" ++ "/tmp/b.bin" ++ "\""),
        useShell := true } :=
  ⟨by decide, spawn_shell_joined_command_amended "/opt/ida/idat" "/srv/s.py" 7002
    "/tmp/b.bin" (by decide)⟩

/-! ## C2: eviction when the range is exhausted at capacity -/

/-- C2 (code bug): with the pool at capacity and every range port taken, the
code is supposed to evict the least-recently-used worker and reclaim its
port, but `_find_available_port` holds `self.lock` while calling
`self.stop_ida_server(lru_port)`, which re-acquires the same non-reentrant
`threading.Lock` — the call blocks forever instead of returning the LRU
port.  The conjuncts witness that the claim's precondition holds (no free
port in the range, pool size at `max_processes`), that the LRU worker is
indeed selected, and that the nested lock acquisition deadlocks. -/
theorem findAvailablePort_eviction_deadlocks :
    ((get_ida_server_ports stFull.max_processes).all
        (fun q => (usedPorts stFull).contains q)) = true ∧
    stFull.ida_processes.length ≥ stFull.max_processes ∧
    minByLastUsed stFull.ida_processes = some (7001, procA) ∧
    stop_ida_server seNice true stFull 7001 = Res.deadlock ∧
    find_available_port peC2 seNice false stFull = (PortResult.deadlock, stFull) := by
  refine ⟨by decide, by decide, by decide, rfl, by decide⟩

/-! ## C8: terminateWorker and the escalation chain -/

/-- C8, counterexample: when the worker survives the grace window and the
SIGTERM `os.kill` raises (`seRaise`), the `except` clause only force-releases
the port; the `del self.ida_processes[port]` at the end of the `try` block is
skipped, so the pool entry survives the call — contradicting "removes the
port's entry from the Pool on every execution path ... or an error occurred
along the escalation chain". -/
theorem terminate_error_path_keeps_pool_entry_cex :
    alookup stC8.ida_processes 7002 = some pC8 ∧
    stop_ida_server seRaise false stC8 7002 =
      Res.ok (stC8, [Event.sendStop 7002, Event.sigterm 9, Event.forceRelease 7002]) ∧
    stC8.ida_processes ≠ [] := by
  refine ⟨by decide, by decide, by decide⟩

/-- C8, amended: for every port present in the Pool, `stop_ida_server`
removes the entry (and releases the port) whichever escalation step
sufficed — graceful stop, SIGTERM, or SIGKILL — *provided no OS error is
raised by the signal calls*; if one is raised, the entry remains in the Pool
and only a forced port reclamation is attempted (see the counterexample). -/
theorem terminate_releases_on_escalation_amended (senv : StopEnv) (st : ManagerState)
    (port : Nat) (p : IDAProcess)
    (hp : alookup st.ida_processes port = some p)
    (ht : senv.sigtermRaises p.pid = false)
    (hk : senv.sigkillRaises p.pid = false) :
    match stop_ida_server senv false st port with
    | Res.ok (st', evs) =>
        st'.ida_processes = aerase st.ida_processes port ∧
        st'.reserved_ports = st.reserved_ports ∧
        st'.max_processes = st.max_processes ∧
        Event.sendStop port ∈ evs
    | Res.deadlock => False := by
  unfold stop_ida_server finishStop
  rw [hp]
  cases hA : senv.aliveAfterGrace p.pid <;>
    cases hT : senv.termWithinTimeout p.pid <;>
      cases hR : senv.portReleases port <;>
        simp [hA, hT, hR, ht, hk]

theorem terminate_releases_on_escalation_amended_witness :
    (alookup stC8.ida_processes 7002 = some pC8 ∧
      seNice.sigtermRaises pC8.pid = false ∧
      seNice.sigkillRaises pC8.pid = false) ∧
    (match stop_ida_server seNice false stC8 7002 with
     | Res.ok (st', evs) =>
         st'.ida_processes = aerase stC8.ida_processes 7002 ∧
         st'.reserved_ports = stC8.reserved_ports ∧
         st'.max_processes = stC8.max_processes ∧
         Event.sendStop 7002 ∈ evs
     | Res.deadlock => False) :=
  ⟨⟨by decide, by decide, by decide⟩,
    terminate_releases_on_escalation_amended seNice stC8 7002 pC8 (by decide) (by decide)
      (by decide)⟩

/-! ## C10: missing target and database fail before any side effect -/

/-- C10: when neither the target file nor its `.i64` database exists,
`_ensure_binary_loaded` returns `None` at the very first check: the manager
state, the reservation map and the world are untouched, no event (reserve /
spawn / rename / signal) is produced, and the client receives the structured
error envelope instead of a worker. -/
theorem ensure_missing_files_no_side_effects (eenv : EnsureEnv) (conn : ConnOutcome)
    (ip sp : String) (fuel : Nat) (st : ManagerState) (w : World) (binary a : String)
    (addr : Option String)
    (h1 : fsExists w binary = false)
    (h2 : fsExists w (binary ++ ".i64") = false)
    (ha : a ≠ "stop_server") :
    ensure_binary_loaded eenv ip sp (fuel + 1) w st binary =
      (EnsureOutcome.failure FailKind.fileNotFound, st, w, []) ∧
    handle_client_request eenv conn ip sp (fuel + 1) st w ⟨some a, some binary, addr⟩ =
      Res.ok ([("error", JVal.s "无法加载指定的二进制文件")], st, w, []) := by
  have hatt : ensure_attempt eenv ip sp w st binary =
      AttemptRes.done (EnsureOutcome.failure FailKind.fileNotFound, st, w, []) := by
    unfold ensure_attempt
    rw [h1, h2]
    rfl
  have he : ensure_binary_loaded eenv ip sp (fuel + 1) w st binary =
      (EnsureOutcome.failure FailKind.fileNotFound, st, w, []) := by
    unfold ensure_binary_loaded
    rw [hatt]
  refine ⟨he, ?_⟩
  have hb : ((some a : Option String) == some "stop_server") = false :=
    beq_eq_false_of_ne (by simpa using ha)
  unfold handle_client_request
  simp [hb, he]

theorem ensure_missing_files_no_side_effects_witness :
    (fsExists wEmptyFS "/bins/Z" = false ∧
      fsExists wEmptyFS ("/bins/Z" ++ ".i64") = false ∧
      ("get_functions" : String) ≠ "stop_server") ∧
    (ensure_binary_loaded eenvOk "/opt/idat" "/s.py" (1 + 1) wEmptyFS stEmpty "/bins/Z" =
        (EnsureOutcome.failure FailKind.fileNotFound, stEmpty, wEmptyFS, []) ∧
      handle_client_request eenvOk ConnOutcome.emptyData "/opt/idat" "/s.py" (1 + 1) stEmpty
          wEmptyFS ⟨some "get_functions", some "/bins/Z", none⟩ =
        Res.ok ([("error", JVal.s "无法加载指定的二进制文件")], stEmpty, wEmptyFS, [])) :=
  ⟨⟨by decide, by decide, by decide⟩,
    ensure_missing_files_no_side_effects eenvOk ConnOutcome.emptyData "/opt/idat" "/s.py" 1
      stEmpty wEmptyFS "/bins/Z" "get_functions" none (by decide) (by decide) (by decide)⟩

/-! ## C6: shape of client-facing responses -/

/-- C6, counterexample: a request lacking `binary_path` is answered with
`{"error": "未指定二进制文件路径"}` — a response with no `success` key at all,
refuting "every client-facing response is a JSON object containing a boolean
`success` field" and the `{"success": false, "error": ...}` envelope shape. -/
theorem response_missing_success_field_cex :
    handle_client_request eenvOk ConnOutcome.emptyData "/opt/idat" "/s.py" 2 stEmpty wEmptyFS
        reqNoBin =
      Res.ok ([("error", JVal.s "未指定二进制文件路径")], stEmpty, wEmptyFS, []) ∧
    hasSuccessBool [("error", JVal.s "未指定二进制文件路径")] = false := by
  refine ⟨by decide, by decide⟩

/-- Every response the worker-side `handle_request` produces carries either
`success:true` or a non-empty `error` string. -/
theorem worker_responses_good (wenv : WorkerEnv) (req : Request) :
    goodResp (worker_handle_request wenv req) = true := by
  have haddr1 : ("地址 " ++ wenv.addrText ++ " 处未找到函数") ≠ "" :=
    append_left_ne_empty _ _ (append_left_ne_empty "地址 " wenv.addrText (by decide))
  have haddr2 : ("函数 " ++ wenv.addrText ++ " 反编译失败") ≠ "" :=
    append_left_ne_empty _ _ (append_left_ne_empty "函数 " wenv.addrText (by decide))
  unfold worker_handle_request
  split
  · rfl
  · cases hpe : wenv.parseExc with
    | some m =>
      simp [goodResp, jlookup, append_left_ne_empty "处理请求时发生错误: " m (by decide)]
    | none =>
      cases hx : wenv.hexraysOk <;> cases hf : wenv.funcFound <;> cases hd : wenv.decompileOk <;>
        simp [hx, hf, hd, goodResp, jlookup, haddr1, haddr2]
  · cases hle : wenv.listExc with
    | some m =>
      simp [goodResp, jlookup, append_left_ne_empty "获取函数列表失败: " m (by decide)]
    | none => rfl
  · rfl
  · simp [goodResp, jlookup, append_left_ne_empty "未知的操作: " (optActionText _) (by decide)]

/-- C6, amended: every completed client-facing response either carries
`success:true` or carries a non-empty `error` string, and connection-level
failures are translated into `{"error": <kind>}` envelopes rather than
propagated as raw exceptions — but the error envelopes do NOT carry a
`success` field (see the counterexample).  Responses forwarded verbatim from
a worker are assumed to satisfy the same shape, which
`worker_responses_good` establishes for the worker implementation. -/
theorem responses_success_or_error_amended (eenv : EnsureEnv) (conn : ConnOutcome)
    (ip sp : String) (fuel : Nat) (st : ManagerState) (w : World) (req : Request)
    (resp : JObj) (st' : ManagerState) (w' : World) (evs : List Event)
    (hok : ∀ r, conn = ConnOutcome.ok r → goodResp r = true)
    (h : handle_client_request eenv conn ip sp fuel st w req = Res.ok (resp, st', w', evs)) :
    goodResp resp = true := by
  have hnet : ∀ m : String, ("网络错误: " ++ m) ≠ "" := fun m =>
    append_left_ne_empty _ m (by decide)
  have hparse : ∀ m : String, ("解析响应失败: " ++ m) ≠ "" := fun m =>
    append_left_ne_empty _ m (by decide)
  have hcomm : ∀ m : String, ("与IDA服务器通信失败: " ++ m) ≠ "" := fun m =>
    append_left_ne_empty _ m (by decide)
  have hunk : ("未知的操作: " ++ optActionText req.action) ≠ "" :=
    append_left_ne_empty _ _ (by decide)
  unfold handle_client_request at h
  split at h
  · -- stop_server branch
    rcases hs : stop_all_servers eenv.stopEnv st with ⟨st2, evs2⟩ | _
    · rw [hs] at h
      simp only [Res.ok.injEq, Prod.mk.injEq] at h
      obtain ⟨hr, -⟩ := h
      subst hr
      rfl
    · rw [hs] at h
      exact absurd h (by simp)
  · -- other actions
    split at h
    · -- binary_path = none
      simp only [Res.ok.injEq, Prod.mk.injEq] at h
      obtain ⟨hr, -⟩ := h
      subst hr
      rfl
    · -- binary_path = some bp
      split at h
      · -- ensure_binary_loaded deadlocked
        exact absurd h (by simp)
      · -- ensure_binary_loaded failed
        simp only [Res.ok.injEq, Prod.mk.injEq] at h
        obtain ⟨hr, -⟩ := h
        subst hr
        rfl
      · split at h
        · -- forwarded to the worker
          cases conn with
          | ok r =>
            simp only [send_ida_request, Res.ok.injEq, Prod.mk.injEq] at h
            obtain ⟨hr, -⟩ := h
            subst hr
            exact hok r rfl
          | socketError m =>
            simp only [send_ida_request, Res.ok.injEq, Prod.mk.injEq] at h
            obtain ⟨hr, -⟩ := h
            subst hr
            simp [goodResp, jlookup, hnet m]
          | emptyData =>
            simp only [send_ida_request, Res.ok.injEq, Prod.mk.injEq] at h
            obtain ⟨hr, -⟩ := h
            subst hr
            rfl
          | badJson m =>
            simp only [send_ida_request, Res.ok.injEq, Prod.mk.injEq] at h
            obtain ⟨hr, -⟩ := h
            subst hr
            simp [goodResp, jlookup, hparse m]
          | recvTimeout m =>
            simp only [send_ida_request, Res.ok.injEq, Prod.mk.injEq] at h
            obtain ⟨hr, -⟩ := h
            subst hr
            simp [goodResp, jlookup, hcomm m]
        · -- unknown action
          simp only [Res.ok.injEq, Prod.mk.injEq] at h
          obtain ⟨hr, -⟩ := h
          subst hr
          simp [goodResp, jlookup, hunk]

theorem responses_success_or_error_amended_witness :
    (∀ r, ConnOutcome.emptyData = ConnOutcome.ok r → goodResp r = true) ∧
    goodResp [("error", JVal.s "未指定二进制文件路径")] = true := by
  constructor
  · intro r hr
    cases hr
  · exact responses_success_or_error_amended eenvOk ConnOutcome.emptyData "/opt/idat" "/s.py" 2
      stEmpty wEmptyFS reqNoBin [("error", JVal.s "未指定二进制文件路径")] stEmpty wEmptyFS []
      (fun r hr => by cases hr) (by decide)

/-! ## C1: idempotent fast path of ensureWorker -/

theorem refresh_keys_eq (now : Nat) (binary : String) :
    ∀ l : List (Nat × IDAProcess), pkeys (refresh_binary_proc now l binary) = pkeys l := by
  intro l
  induction l with
  | nil => rfl
  | cons hd rest ih =>
    obtain ⟨k, p⟩ := hd
    unfold refresh_binary_proc
    split
    · rfl
    · show k :: pkeys (refresh_binary_proc now rest binary) = k :: pkeys rest
      rw [ih]

theorem refresh_targets_eq (now : Nat) (binary : String) :
    ∀ l : List (Nat × IDAProcess), targets (refresh_binary_proc now l binary) = targets l := by
  intro l
  induction l with
  | nil => rfl
  | cons hd rest ih =>
    obtain ⟨k, p⟩ := hd
    unfold refresh_binary_proc
    split
    · rfl
    · show p.binary_path :: targets (refresh_binary_proc now rest binary) =
        p.binary_path :: targets rest
      rw [ih]

theorem refresh_pointwise (now : Nat) (binary : String) :
    ∀ l : List (Nat × IDAProcess), ∀ e ∈ refresh_binary_proc now l binary,
      ∃ e0, e0 ∈ l ∧ e.1 = e0.1 ∧
        (e.2 = e0.2 ∨ e.2 = { e0.2 with last_used := now }) := by
  intro l
  induction l with
  | nil => intro e he; simp [refresh_binary_proc] at he
  | cons hd rest ih =>
    obtain ⟨k, p⟩ := hd
    intro e he
    unfold refresh_binary_proc at he
    split at he
    · rcases List.mem_cons.mp he with h1 | h2
      · exact ⟨(k, p), List.mem_cons_self _ _, by simp [h1], Or.inr (by simp [h1])⟩
      · exact ⟨e, List.mem_cons_of_mem _ h2, rfl, Or.inl rfl⟩
    · rcases List.mem_cons.mp he with h1 | h2
      · exact ⟨(k, p), List.mem_cons_self _ _, by simp [h1], Or.inl (by simp [h1])⟩
      · obtain ⟨e0, he0, h3, h4⟩ := ih e h2
        exact ⟨e0, List.mem_cons_of_mem _ he0, h3, h4⟩

/-- C1: if an active worker is already bound to the target (and the target is
still on disk), `_ensure_binary_loaded` takes the fast path: it returns that
same worker (same pid, same port) with only its last-used timestamp
refreshed; no port is reserved, no process is spawned, no event occurs, and
the world, the reservation map, the pool's keys and the pool's target
bindings are all unchanged. -/
theorem ensureWorker_idempotent_fast_path (eenv : EnsureEnv) (ip sp : String) (fuel : Nat)
    (w : World) (st : ManagerState) (binary : String) (p : IDAProcess)
    (hex : (!(fsExists w binary) && !(fsExists w (binary ++ ".i64"))) = false)
    (hp : get_process_for_binary st binary = some p) :
    ensure_binary_loaded eenv ip sp (fuel + 1) w st binary =
      (EnsureOutcome.success { p with last_used := eenv.now },
       { st with ida_processes := refresh_binary_proc eenv.now st.ida_processes binary },
       w, []) ∧
    pkeys (refresh_binary_proc eenv.now st.ida_processes binary) = pkeys st.ida_processes ∧
    targets (refresh_binary_proc eenv.now st.ida_processes binary) =
      targets st.ida_processes ∧
    (∀ e ∈ refresh_binary_proc eenv.now st.ida_processes binary,
      ∃ e0, e0 ∈ st.ida_processes ∧ e.1 = e0.1 ∧
        (e.2 = e0.2 ∨ e.2 = { e0.2 with last_used := eenv.now })) ∧
    ({ p with last_used := eenv.now } : IDAProcess).port = p.port ∧
    ({ p with last_used := eenv.now } : IDAProcess).pid = p.pid := by
  have hatt : ensure_attempt eenv ip sp w st binary =
      AttemptRes.done (EnsureOutcome.success { p with last_used := eenv.now },
        { st with ida_processes := refresh_binary_proc eenv.now st.ida_processes binary },
        w, []) := by
    unfold ensure_attempt
    rw [hex, hp]
    rfl
  refine ⟨?_, refresh_keys_eq _ _ _, refresh_targets_eq _ _ _, refresh_pointwise _ _ _,
    rfl, rfl⟩
  unfold ensure_binary_loaded
  rw [hatt]

theorem ensureWorker_idempotent_fast_path_witness :
    ((!(fsExists wA "/bins/A") && !(fsExists wA ("/bins/A" ++ ".i64"))) = false ∧
      get_process_for_binary stOne "/bins/A" = some procA) ∧
    ensure_binary_loaded eenvOk "/opt/idat" "/s.py" (1 + 1) wA stOne "/bins/A" =
      (EnsureOutcome.success { procA with last_used := eenvOk.now },
       { stOne with
          ida_processes := refresh_binary_proc eenvOk.now stOne.ida_processes "/bins/A" },
       wA, []) :=
  ⟨⟨by decide, by decide⟩,
    (ensureWorker_idempotent_fast_path eenvOk "/opt/idat" "/s.py" 1 wA stOne "/bins/A" procA
      (by decide) (by decide)).1⟩

/-! ## C9: `stop_server` tears down the whole pool -/

theorem filter_eq_self_of_lookup_none {β : Type} (l : List (Nat × β)) (k : Nat)
    (h : alookup l k = none) : aerase l k = l := by
  unfold aerase
  apply List.filter_eq_self.mpr
  intro e he
  unfold alookup at h
  cases hf : l.find? (fun e => e.1 == k) with
  | some x => rw [hf] at h; simp at h
  | none =>
    have hx := List.find?_eq_none.mp hf e he
    simpa using hx

/-- On the no-OS-error oracle paths, `stop_ida_server` completes and removes
exactly the given port's entry, keeping reservations and capacity. -/
theorem stop_removes_entry (senv : StopEnv) (st : ManagerState) (port : Nat)
    (h : ∀ e ∈ st.ida_processes,
      senv.sigtermRaises (e.2).pid = false ∧ senv.sigkillRaises (e.2).pid = false) :
    match stop_ida_server senv false st port with
    | Res.ok (st', _evs) =>
        st'.ida_processes = aerase st.ida_processes port ∧
        st'.reserved_ports = st.reserved_ports ∧
        st'.max_processes = st.max_processes
    | Res.deadlock => False := by
  cases hf : st.ida_processes.find? (fun e => e.1 == port) with
  | none =>
    have hp : alookup st.ida_processes port = none := by
      unfold alookup; rw [hf]; rfl
    unfold stop_ida_server
    rw [hp]
    exact ⟨(filter_eq_self_of_lookup_none _ _ hp).symm, rfl, rfl⟩
  | some e =>
    have hmem := List.mem_of_find?_eq_some hf
    obtain ⟨ht, hk⟩ := h e hmem
    have hp : alookup st.ida_processes port = some e.2 := by
      unfold alookup; rw [hf]; rfl
    unfold stop_ida_server finishStop
    rw [hp]
    cases hA : senv.aliveAfterGrace e.2.pid <;>
      cases hT : senv.termWithinTimeout e.2.pid <;>
        cases hR : senv.portReleases port <;>
          simp [hA, hT, hR, ht, hk]

theorem foldl_aerase_all {β : Type} :
    ∀ (ports : List Nat) (l : List (Nat × β)),
      (∀ e ∈ l, e.1 ∈ ports) →
      ports.foldl (fun acc k => aerase acc k) l = [] := by
  intro ports
  induction ports with
  | nil =>
    intro l h
    cases l with
    | nil => rfl
    | cons e es => exact absurd (h e (by simp)) (by simp)
  | cons q qs ih =>
    intro l h
    simp only [List.foldl_cons]
    apply ih
    intro e he
    have he' : e ∈ l := List.mem_of_mem_filter he
    have hne : (e.1 == q) = false := by
      have h2 := List.of_mem_filter he
      simpa using h2
    have h3 := h e he'
    simp only [List.mem_cons] at h3
    rcases h3 with h4 | h4
    · exact absurd h4 (by simpa using hne)
    · exact h4

theorem stop_all_go_clears (senv : StopEnv) :
    ∀ (ports : List Nat) (st : ManagerState) (acc : List Event),
      (∀ e ∈ st.ida_processes,
        senv.sigtermRaises (e.2).pid = false ∧ senv.sigkillRaises (e.2).pid = false) →
      match stop_all_go senv ports st acc with
      | Res.ok (st', _evs) =>
          st'.ida_processes = ports.foldl (fun l k => aerase l k) st.ida_processes ∧
          st'.reserved_ports = st.reserved_ports ∧
          st'.max_processes = st.max_processes
      | Res.deadlock => False := by
  intro ports
  induction ports with
  | nil => intro st acc h; exact ⟨rfl, rfl, rfl⟩
  | cons q qs ih =>
    intro st acc h
    have hq := stop_removes_entry senv st q h
    cases hs : stop_ida_server senv false st q with
    | deadlock =>
      rw [hs] at hq
      have hstep : stop_all_go senv (q :: qs) st acc = Res.deadlock := by
        simp only [stop_all_go]
        rw [hs]
      rw [hstep]
      exact hq
    | ok r =>
      obtain ⟨st1, evs1⟩ := r
      rw [hs] at hq
      obtain ⟨h1, h2, h3⟩ := hq
      have hpre : ∀ e ∈ st1.ida_processes,
          senv.sigtermRaises (e.2).pid = false ∧ senv.sigkillRaises (e.2).pid = false := by
        intro e he
        rw [h1] at he
        exact h e (List.mem_of_mem_filter he)
      have hnext := ih st1 (acc ++ evs1) hpre
      have hstep : stop_all_go senv (q :: qs) st acc =
          stop_all_go senv qs st1 (acc ++ evs1) := by
        simp only [stop_all_go]
        rw [hs]
      rw [hstep]
      cases hg : stop_all_go senv qs st1 (acc ++ evs1) with
      | deadlock => rw [hg] at hnext; exact hnext
      | ok r2 =>
        obtain ⟨st2, evs2⟩ := r2
        rw [hg] at hnext
        obtain ⟨g1, g2, g3⟩ := hnext
        refine ⟨?_, g2.trans h2, g3.trans h3⟩
        rw [g1, h1]
        simp [List.foldl_cons, aerase]

/-- C9: a `stop_server` request tears down the entire pool — provided no OS
error interrupts the per-worker escalation, every active worker is stopped,
the pool ends empty (reservations and capacity untouched, world untouched),
and the reply is `{"success": true, "message": ...}`. -/
theorem stop_server_tears_down_entire_pool (eenv : EnsureEnv) (conn : ConnOutcome)
    (ip sp : String) (fuel : Nat) (st : ManagerState) (w : World) (req : Request)
    (ha : req.action = some "stop_server")
    (h : ∀ e ∈ st.ida_processes,
      eenv.stopEnv.sigtermRaises (e.2).pid = false ∧
      eenv.stopEnv.sigkillRaises (e.2).pid = false) :
    match handle_client_request eenv conn ip sp fuel st w req with
    | Res.ok (resp, st', w', _evs) =>
        resp = [("success", JVal.b true), ("message", JVal.s "所有服务器已停止")] ∧
        st'.ida_processes = [] ∧
        st'.reserved_ports = st.reserved_ports ∧
        st'.max_processes = st.max_processes ∧
        w' = w
    | Res.deadlock => False := by
  have hgo := stop_all_go_clears eenv.stopEnv (st.ida_processes.map (fun e => e.1)) st [] h
  have hfold : (st.ida_processes.map (fun e => e.1)).foldl (fun l k => aerase l k)
      st.ida_processes = [] :=
    foldl_aerase_all _ _ (fun e he => List.mem_map_of_mem _ he)
  have hb : (req.action == some "stop_server") = true := by rw [ha]; rfl
  have hh : handle_client_request eenv conn ip sp fuel st w req =
      match stop_all_go eenv.stopEnv (st.ida_processes.map (fun e => e.1)) st [] with
      | Res.deadlock => Res.deadlock
      | Res.ok (st', evs) =>
        Res.ok ([("success", JVal.b true), ("message", JVal.s "所有服务器已停止")],
          st', w, evs) := by
    unfold handle_client_request stop_all_servers
    rw [hb]
    rfl
  rw [hh]
  cases hs : stop_all_go eenv.stopEnv (st.ida_processes.map (fun e => e.1)) st [] with
  | deadlock =>
    rw [hs] at hgo
    exact hgo
  | ok r =>
    obtain ⟨st2, evs2⟩ := r
    rw [hs] at hgo
    obtain ⟨g1, g2, g3⟩ := hgo
    exact ⟨rfl, by rw [g1, hfold], g2, g3, rfl⟩

theorem stop_server_tears_down_entire_pool_witness :
    (reqStop.action = some "stop_server" ∧
      ∀ e ∈ stFull.ida_processes,
        eenvOk.stopEnv.sigtermRaises (e.2).pid = false ∧
        eenvOk.stopEnv.sigkillRaises (e.2).pid = false) ∧
    (match handle_client_request eenvOk ConnOutcome.emptyData "/opt/idat" "/s.py" 2 stFull
        wEmptyFS reqStop with
     | Res.ok (resp, st', w', _evs) =>
         resp = [("success", JVal.b true), ("message", JVal.s "所有服务器已停止")] ∧
         st'.ida_processes = [] ∧
         st'.reserved_ports = stFull.reserved_ports ∧
         st'.max_processes = stFull.max_processes ∧
         w' = wEmptyFS
     | Res.deadlock => False) :=
  ⟨⟨rfl, by decide⟩,
    stop_server_tears_down_entire_pool eenvOk ConnOutcome.emptyData "/opt/idat" "/s.py" 2
      stFull wEmptyFS reqStop rfl (by decide)⟩

/-! ## C5: reserve = purge, then first free port in ascending scan -/

theorem ainsert_mem_self {β : Type} (l : List (Nat × β)) (k : Nat) (v : β) :
    (k, v) ∈ ainsert l k v := by
  unfold ainsert
  split
  · rename_i hs
    obtain ⟨e, hfind⟩ := Option.isSome_iff_exists.mp hs
    have hmem := List.mem_of_find?_eq_some hfind
    have hpe := List.find?_some hfind
    have hmap := List.mem_map_of_mem (fun e => if e.1 == k then (k, v) else e) hmem
    simpa [hpe] using hmap
  · exact List.mem_append.mpr (Or.inr (by simp))

theorem ainsert_mem_of_ne {β : Type} (l : List (Nat × β)) (k : Nat) (v : β)
    (e : Nat × β) (he : e ∈ l) (hne : (e.1 == k) = false) : e ∈ ainsert l k v := by
  unfold ainsert
  split
  · have hmap := List.mem_map_of_mem (fun e => if e.1 == k then (k, v) else e) he
    simpa [hne] using hmap
  · exact List.mem_append.mpr (Or.inl he)

theorem ainsert_eq_append {β : Type} (l : List (Nat × β)) (k : Nat) (v : β)
    (h : ∀ e ∈ l, (e.1 == k) = false) : ainsert l k v = l ++ [(k, v)] := by
  unfold ainsert
  split
  · rename_i hs
    obtain ⟨e, hfind⟩ := Option.isSome_iff_exists.mp hs
    have hpe := List.find?_some hfind
    rw [h e (List.mem_of_find?_eq_some hfind)] at hpe
    cases hpe
  · rfl

theorem find?_earliest {f : Nat → Bool} {a : Nat} :
    ∀ l : List Nat, l.Pairwise (· < ·) → l.find? f = some a →
      ∀ b ∈ l, b < a → f b = false := by
  intro l
  induction l with
  | nil => intro _ h; cases h
  | cons x xs ih =>
    intro hp h b hb hba
    cases hx : f x with
    | true =>
      rw [List.find?_cons_of_pos _ hx] at h
      injection h with h'
      subst h'
      rcases List.mem_cons.mp hb with rfl | hb'
      · omega
      · have hlt := (List.pairwise_cons.mp hp).1 b hb'
        omega
    | false =>
      rcases List.mem_cons.mp hb with rfl | hb'
      · exact hx
      · rw [List.find?_cons_of_neg _ (by simp [hx])] at h
        exact ih (List.pairwise_cons.mp hp).2 h b hb' hba

theorem get_ida_server_ports_sorted (count : Nat) :
    (get_ida_server_ports count).Pairwise (· < ·) := by
  unfold get_ida_server_ports
  exact List.pairwise_lt_range' _ _

/-- The eviction fallback can never produce a port: before reaching the
reserve-and-return code it calls `stop_ida_server` with `self.lock` still
held, which deadlocks on the nested acquire of the non-reentrant lock. -/
theorem find_fallback_not_found (penv : PortEnv) (senv : StopEnv) (st1 : ManagerState)
    (p : Nat) (st' : ManagerState) :
    find_fallback penv senv st1 ≠ (PortResult.found p, st') := by
  unfold find_fallback
  split
  · split
    · intro hc
      injection hc with h1 _
      cases h1
    · split
      · intro hc
        injection hc with h1 _
        cases h1
      · rename_i st2 evs2 heq2
        rw [stop_ida_server_locked] at heq2
        cases heq2
  · intro hc
    injection hc with h1 _
    cases h1

/-- Characterization of a successful `_find_available_port`: the port can only
come from the ascending scan (the eviction fallback deadlocks on the nested
lock acquire and can never produce a port), so it is the first hit of `find?`
over the configured range, and the new state records exactly the reservation
`(p, now)` on top of the purged reservation map. -/
theorem find_available_port_found (penv : PortEnv) (senv : StopEnv) (st : ManagerState)
    (p : Nat) (st' : ManagerState)
    (h : find_available_port penv senv false st = (PortResult.found p, st')) :
    (get_ida_server_ports st.max_processes).find?
        (fun q => !((usedPorts { st with
            reserved_ports := purgeExpired penv.now st.reserved_ports }).contains q) &&
          !(penv.osPortInUse q)) = some p ∧
    st' = { st with
      reserved_ports := ainsert (purgeExpired penv.now st.reserved_ports) p penv.now } := by
  unfold find_available_port at h
  rw [if_neg Bool.false_ne_true] at h
  dsimp only at h
  cases hscan : find_scan penv { st with
      reserved_ports := purgeExpired penv.now st.reserved_ports } with
  | some q =>
    rw [hscan] at h
    simp only [Option.elim] at h
    injection h with h1 h2
    injection h1 with h1
    subst h1
    exact ⟨hscan, h2.symm⟩
  | none =>
    rw [hscan] at h
    simp only [Option.elim] at h
    exact absurd h (find_fallback_not_found penv senv _ p st')

/-- C5: a successful `reserve()` first drops exactly the reservations
strictly older than the 60-second TTL, then scans the configured range in
ascending order: the returned port is in the range, is neither active nor
(still-)reserved nor OS-bound, no smaller port of the range satisfies all
three conditions, and the new state records the reservation `(p, now)` on top
of the purged reservation map (active workers untouched). -/
theorem reserve_purges_then_scans_first_free (penv : PortEnv) (senv : StopEnv)
    (st : ManagerState) (p : Nat) (st' : ManagerState)
    (h : find_available_port penv senv false st = (PortResult.found p, st')) :
    (∀ e : Nat × Nat, e ∈ purgeExpired penv.now st.reserved_ports ↔
        (e ∈ st.reserved_ports ∧ penv.now - e.2 ≤ 60)) ∧
    p ∈ get_ida_server_ports st.max_processes ∧
    p ∉ pkeys st.ida_processes ∧
    p ∉ rkeys (purgeExpired penv.now st.reserved_ports) ∧
    penv.osPortInUse p = false ∧
    (∀ q ∈ get_ida_server_ports st.max_processes, q < p →
      ¬(q ∉ pkeys st.ida_processes ∧ q ∉ rkeys (purgeExpired penv.now st.reserved_ports) ∧
        penv.osPortInUse q = false)) ∧
    st' = { st with
      reserved_ports := ainsert (purgeExpired penv.now st.reserved_ports) p penv.now } ∧
    (p, penv.now) ∈ st'.reserved_ports := by
  obtain ⟨hfind, hst⟩ := find_available_port_found penv senv st p st' h
  have hpmem := List.mem_of_find?_eq_some hfind
  have hpred := List.find?_some hfind
  simp only [] at hpred
  rw [Bool.and_eq_true] at hpred
  obtain ⟨hcont, hos⟩ := hpred
  have hcont2 : ((usedPorts { st with
      reserved_ports := purgeExpired penv.now st.reserved_ports }).contains p) = false := by
    simpa using hcont
  have hos2 : penv.osPortInUse p = false := by simpa using hos
  have hnot : p ∉ usedPorts { st with
      reserved_ports := purgeExpired penv.now st.reserved_ports } := by
    simpa using hcont2
  have hnot2 : ¬(p ∈ pkeys st.ida_processes ∨
      p ∈ rkeys (purgeExpired penv.now st.reserved_ports)) := by
    intro hc
    apply hnot
    rcases hc with hc | hc
    · exact List.mem_append.mpr (Or.inl hc)
    · exact List.mem_append.mpr (Or.inr hc)
  refine ⟨?_, hpmem, fun hc => hnot2 (Or.inl hc), fun hc => hnot2 (Or.inr hc), hos2, ?_,
    hst, ?_⟩
  · intro e
    unfold purgeExpired
    rw [List.mem_filter]
    constructor
    · rintro ⟨h1, h2⟩
      refine ⟨h1, ?_⟩
      simp at h2
      omega
    · rintro ⟨h1, h2⟩
      refine ⟨h1, ?_⟩
      simp
      omega
  · intro q hq hqp hcfree
    obtain ⟨hq1, hq2, hq3⟩ := hcfree
    have hfalse := find?_earliest _ (get_ida_server_ports_sorted st.max_processes) hfind q hq hqp
    have hfalse2 : (!((usedPorts { st with
        reserved_ports := purgeExpired penv.now st.reserved_ports }).contains q) &&
        !(penv.osPortInUse q)) = false := hfalse
    cases hcq : (usedPorts { st with
        reserved_ports := purgeExpired penv.now st.reserved_ports }).contains q with
    | false =>
      rw [hcq, hq3] at hfalse2
      simp at hfalse2
    | true =>
      have hmem : q ∈ usedPorts { st with
          reserved_ports := purgeExpired penv.now st.reserved_ports } := by
        simpa using hcq
      rcases List.mem_append.mp hmem with hm | hm
      · exact hq1 hm
      · exact hq2 hm
  · rw [hst]
    exact ainsert_mem_self _ _ _

theorem reserve_purges_then_scans_first_free_witness :
    find_available_port peC2 seNice false stOne =
      (PortResult.found 7002, ⟨2, [(7001, procA)], [(7002, 100)]⟩) ∧
    (7002, 100) ∈ (⟨2, [(7001, procA)], [(7002, 100)]⟩ : ManagerState).reserved_ports :=
  ⟨by decide,
    (reserve_purges_then_scans_first_free peC2 seNice stOne 7002
      ⟨2, [(7001, procA)], [(7002, 100)]⟩ (by decide)).2.2.2.2.2.2.2⟩

/-! ## C3: quarantine-and-retry on handshake failure -/

theorem aerase_key_not_mem {β : Type} (l : List (Nat × β)) (k : Nat) :
    k ∉ (aerase l k).map (fun e => e.1) := by
  intro hc
  obtain ⟨e, he, hek⟩ := List.mem_map.mp hc
  have hp := List.of_mem_filter he
  rw [hek] at hp
  simp at hp

/-- C3, counterexample: target and database both exist, every handshake
fails, the rename succeeds.  The run quarantines the database once, retries
exactly once and fails — but the port reserved for the FIRST attempt (7001)
is still in the reservation map after the call returns, even though no
reservation existed before the call.  This contradicts the claim's "it
terminates the spawned process, releases its reserved port, and fails with
WorkerStartupTimeout": the quarantine path (lines 279-290) re-invokes
`_ensure_binary_loaded` without releasing the first reservation, and the
recursive call returns `None` normally, so the `except` handler that would
release it never runs. -/
theorem ensure_retry_leaves_first_port_reserved_cex :
    ensure_binary_loaded eenvFail "/opt/idat" "/srv/script.py" 3 wC3 stEmpty "/t/x" =
      (EnsureOutcome.failure FailKind.startupTimeout,
       ⟨2, [], [(7001, 100)]⟩,
       ⟨["/t/x", "/t/x.i64.bak"], 2, 2⟩,
       [Event.spawn 0 (ida_spawn_call "/opt/idat" "/srv/script.py" 7001 "/t/x").command,
        Event.renameFile "/t/x.i64" "/t/x.i64.bak",
        Event.terminate 0,
        Event.spawn 1 (ida_spawn_call "/opt/idat" "/srv/script.py" 7002 "/t/x").command,
        Event.terminate 1]) ∧
    stEmpty.reserved_ports = [] ∧
    (⟨2, [], [(7001, 100)]⟩ : ManagerState).reserved_ports ≠ [] := by
  refine ⟨by decide, rfl, by decide⟩

/-- C3, amended: on handshake failure with an existing `.i64` artifact the
manager renames the artifact aside exactly once and retries the whole spawn
exactly once — for any fuel bound the run performs exactly two spawns, one
rename and two terminations, and fails with the startup-timeout error; the
RETRY's reserved port is released, but the FIRST attempt's reservation is NOT
released: it stays in the reservation map (until the 60 s TTL would expire
it). -/
theorem ensure_quarantine_retries_exactly_once_amended (eenv : EnsureEnv)
    (ip sp : String) (fuel : Nat) (w : World) (st st1 st2 : ManagerState)
    (binary : String) (p1 p2 : Nat)
    (hb : fsExists w binary = true)
    (hi : fsExists w (binary ++ ".i64") = true)
    (hg : get_process_for_binary st binary = none)
    (h1 : find_available_port ⟨eenv.now, eenv.osPortInUse⟩ eenv.stopEnv false st =
      (PortResult.found p1, st1))
    (hh1 : eenv.handshake w.spawnCount = false)
    (hr : eenv.renameOk = true)
    (h2 : find_available_port ⟨eenv.now, eenv.osPortInUse⟩ eenv.stopEnv false st1 =
      (PortResult.found p2, st2))
    (hh2 : eenv.handshake (w.spawnCount + 1) = false) :
    ensure_binary_loaded eenv ip sp (fuel + 2) w st binary =
      (EnsureOutcome.failure FailKind.startupTimeout,
       { st2 with reserved_ports := aerase st2.reserved_ports p2 },
       ⟨(w.fs.filter (fun f => !(f == binary ++ ".i64"))) ++ [binary ++ ".i64" ++ ".bak"],
         w.nextPid + 2, w.spawnCount + 2⟩,
       [Event.spawn w.nextPid (ida_spawn_call ip sp p1 binary).command,
        Event.renameFile (binary ++ ".i64") (binary ++ ".i64" ++ ".bak"),
        Event.terminate w.nextPid,
        Event.spawn (w.nextPid + 1) (ida_spawn_call ip sp p2 binary).command,
        Event.terminate (w.nextPid + 1)]) ∧
    p1 ∈ rkeys (aerase st2.reserved_ports p2) ∧
    p2 ∉ rkeys (aerase st2.reserved_ports p2) := by
  obtain ⟨hfind1, hst1⟩ := find_available_port_found _ _ _ _ _ h1
  obtain ⟨hfind2, hst2⟩ := find_available_port_found _ _ _ _ _ h2
  have hbne : binary ≠ binary ++ ".i64" := self_ne_append _ _ (by decide)
  have hg1 : get_process_for_binary st1 binary = none := by
    rw [hst1]
    exact hg
  -- the retried attempt sees the binary but no longer the database
  have hb2 : fsExists ⟨(w.fs.filter (fun f => !(f == binary ++ ".i64"))) ++
      [binary ++ ".i64" ++ ".bak"], w.nextPid + 1, w.spawnCount + 1⟩ binary = true := by
    have hmem : binary ∈ w.fs := by simpa [fsExists] using hb
    simp only [fsExists]
    simp [List.mem_append, List.mem_filter, hmem, hbne]
  have hi2 : fsExists ⟨(w.fs.filter (fun f => !(f == binary ++ ".i64"))) ++
      [binary ++ ".i64" ++ ".bak"], w.nextPid + 1, w.spawnCount + 1⟩
      (binary ++ ".i64") = false := by
    have hnm : (binary ++ ".i64") ∉ (w.fs.filter (fun f => !(f == binary ++ ".i64"))) ++
        [binary ++ ".i64" ++ ".bak"] := by
      intro hc
      rcases List.mem_append.mp hc with hc | hc
      · have hf := List.of_mem_filter hc
        simp at hf
      · simp only [List.mem_singleton] at hc
        exact (self_ne_append (binary ++ ".i64") ".bak" (by decide)) hc
    simpa [fsExists] using hnm
  -- first attempt: spawn, handshake failure, quarantine, signal retry
  have hstep1 : ensure_attempt eenv ip sp w st binary =
      ensure_spawn eenv ip sp w st1 binary p1 := by
    unfold ensure_attempt
    rw [hb, hi, hg, h1]
    rfl
  have hspawn1 : ensure_spawn eenv ip sp w st1 binary p1 =
      AttemptRes.retry
        ⟨(w.fs.filter (fun f => !(f == binary ++ ".i64"))) ++ [binary ++ ".i64" ++ ".bak"],
          w.nextPid + 1, w.spawnCount + 1⟩
        st1
        [Event.spawn w.nextPid (ida_spawn_call ip sp p1 binary).command,
         Event.renameFile (binary ++ ".i64") (binary ++ ".i64" ++ ".bak"),
         Event.terminate w.nextPid] := by
    unfold ensure_spawn
    dsimp only
    rw [hi, hh1, hr]
    rfl
  have hatt1 := hstep1.trans hspawn1
  -- second attempt: no database any more, handshake failure, hard failure
  have hstep2 : ensure_attempt eenv ip sp
      ⟨(w.fs.filter (fun f => !(f == binary ++ ".i64"))) ++ [binary ++ ".i64" ++ ".bak"],
        w.nextPid + 1, w.spawnCount + 1⟩ st1 binary =
      ensure_spawn eenv ip sp
        ⟨(w.fs.filter (fun f => !(f == binary ++ ".i64"))) ++ [binary ++ ".i64" ++ ".bak"],
          w.nextPid + 1, w.spawnCount + 1⟩ st2 binary p2 := by
    unfold ensure_attempt
    rw [hb2, hi2, hg1, h2]
    rfl
  have hspawn2 : ensure_spawn eenv ip sp
      ⟨(w.fs.filter (fun f => !(f == binary ++ ".i64"))) ++ [binary ++ ".i64" ++ ".bak"],
        w.nextPid + 1, w.spawnCount + 1⟩ st2 binary p2 =
      AttemptRes.done (EnsureOutcome.failure FailKind.startupTimeout,
        { st2 with reserved_ports := aerase st2.reserved_ports p2 },
        ⟨(w.fs.filter (fun f => !(f == binary ++ ".i64"))) ++ [binary ++ ".i64" ++ ".bak"],
          w.nextPid + 2, w.spawnCount + 2⟩,
        [Event.spawn (w.nextPid + 1) (ida_spawn_call ip sp p2 binary).command,
         Event.terminate (w.nextPid + 1)]) := by
    unfold ensure_spawn
    dsimp only
    rw [hi2, hh2]
    rfl
  have hatt2 := hstep2.trans hspawn2
  refine ⟨?_, ?_, ?_⟩
  · unfold ensure_binary_loaded
    rw [hatt1]
    dsimp only
    unfold ensure_binary_loaded
    rw [hatt2]
    rfl
  · -- the first attempt reservation (p1, now) survives into the final map
    have hmem1 : (p1, eenv.now) ∈ st1.reserved_ports := by
      rw [hst1]
      exact ainsert_mem_self _ _ _
    have hmemp : (p1, eenv.now) ∈ purgeExpired eenv.now st1.reserved_ports := by
      apply List.mem_filter.mpr
      exact ⟨hmem1, by simp⟩
    have hp2free : p2 ∉ (usedPorts { st1 with
        reserved_ports := purgeExpired eenv.now st1.reserved_ports }) := by
      have hpred := List.find?_some hfind2
      simp only [] at hpred
      rw [Bool.and_eq_true] at hpred
      have := hpred.1
      simp at this
      simpa using this
    have hne : p1 ≠ p2 := by
      intro hc
      apply hp2free
      apply List.mem_append.mpr
      right
      rw [← hc]
      exact List.mem_map_of_mem _ hmemp
    have hmem2 : (p1, eenv.now) ∈ st2.reserved_ports := by
      rw [hst2]
      exact ainsert_mem_of_ne _ _ _ _ hmemp (beq_eq_false_of_ne hne)
    have hmem3 : (p1, eenv.now) ∈ aerase st2.reserved_ports p2 := by
      apply List.mem_filter.mpr
      refine ⟨hmem2, ?_⟩
      simpa using hne
    exact List.mem_map_of_mem _ hmem3
  · exact aerase_key_not_mem _ _

theorem ensure_quarantine_retries_exactly_once_amended_witness :
    (fsExists wC3 "/t/x" = true ∧
      fsExists wC3 ("/t/x" ++ ".i64") = true ∧
      find_available_port ⟨eenvFail.now, eenvFail.osPortInUse⟩ eenvFail.stopEnv false
        stEmpty = (PortResult.found 7001, st1C3) ∧
      find_available_port ⟨eenvFail.now, eenvFail.osPortInUse⟩ eenvFail.stopEnv false
        st1C3 = (PortResult.found 7002, st2C3)) ∧
    7001 ∈ rkeys (aerase st2C3.reserved_ports 7002) ∧
    7002 ∉ rkeys (aerase st2C3.reserved_ports 7002) :=
  ⟨⟨by decide, by decide, by decide, by decide⟩,
    (ensure_quarantine_retries_exactly_once_amended eenvFail "/opt/idat" "/srv/script.py" 1
      wC3 stEmpty st1C3 st2C3 "/t/x" 7001 7002 (by decide) (by decide) (by decide)
      (by decide) rfl (by decide) (by decide) rfl).2⟩

/-! ## C4: structural invariants of the pool and the reservation map -/

theorem PoolInv_purge (st : ManagerState) (now : Nat) (h : PoolInv st) :
    PoolInv { st with reserved_ports := purgeExpired now st.reserved_ports } := by
  obtain ⟨h1, h2, h3, h4⟩ := h
  refine ⟨h1, ?_, ?_, h4⟩
  · show (rkeys (purgeExpired now st.reserved_ports)).Nodup
    exact List.Nodup.sublist ((List.filter_sublist _).map _) h2
  · intro q hq hqr
    apply h3 q hq
    obtain ⟨e, he, hek⟩ := List.mem_map.mp hqr
    exact hek ▸ List.mem_map_of_mem _ (List.mem_of_mem_filter he)

theorem PoolInv_aerase_reserved (st : ManagerState) (port : Nat) (h : PoolInv st) :
    PoolInv { st with reserved_ports := aerase st.reserved_ports port } := by
  obtain ⟨h1, h2, h3, h4⟩ := h
  refine ⟨h1, ?_, ?_, h4⟩
  · show (rkeys (aerase st.reserved_ports port)).Nodup
    exact List.Nodup.sublist ((List.filter_sublist _).map _) h2
  · intro q hq hqr
    apply h3 q hq
    obtain ⟨e, he, hek⟩ := List.mem_map.mp hqr
    exact hek ▸ List.mem_map_of_mem _ (List.mem_of_mem_filter he)

theorem PoolInv_aerase_active (st : ManagerState) (port : Nat) (h : PoolInv st) :
    PoolInv { st with ida_processes := aerase st.ida_processes port } := by
  obtain ⟨h1, h2, h3, h4⟩ := h
  refine ⟨?_, h2, ?_, ?_⟩
  · show (pkeys (aerase st.ida_processes port)).Nodup
    exact List.Nodup.sublist ((List.filter_sublist _).map _) h1
  · intro q hq
    apply h3 q
    obtain ⟨e, he, hek⟩ := List.mem_map.mp hq
    exact hek ▸ List.mem_map_of_mem _ (List.mem_of_mem_filter he)
  · show (targets (aerase st.ida_processes port)).Nodup
    exact List.Nodup.sublist ((List.filter_sublist _).map _) h4

theorem PoolInv_refresh (st : ManagerState) (now : Nat) (binary : String) (h : PoolInv st) :
    PoolInv { st with
      ida_processes := refresh_binary_proc now st.ida_processes binary } := by
  obtain ⟨h1, h2, h3, h4⟩ := h
  refine ⟨?_, h2, ?_, ?_⟩
  · show (pkeys (refresh_binary_proc now st.ida_processes binary)).Nodup
    rw [refresh_keys_eq]
    exact h1
  · intro q hq
    apply h3 q
    have hq2 : q ∈ pkeys (refresh_binary_proc now st.ida_processes binary) := hq
    rw [refresh_keys_eq] at hq2
    exact hq2
  · show (targets (refresh_binary_proc now st.ida_processes binary)).Nodup
    rw [refresh_targets_eq]
    exact h4

theorem PoolInv_reserve (st : ManagerState) (now p : Nat) (h : PoolInv st)
    (hfree : p ∉ usedPorts { st with
      reserved_ports := purgeExpired now st.reserved_ports }) :
    PoolInv { st with
      reserved_ports := ainsert (purgeExpired now st.reserved_ports) p now } := by
  obtain ⟨h1, h2, h3, h4⟩ := PoolInv_purge st now h
  have hnp : p ∉ rkeys (purgeExpired now st.reserved_ports) := fun hc =>
    hfree (List.mem_append.mpr (Or.inr hc))
  have hni : p ∉ pkeys st.ida_processes := fun hc =>
    hfree (List.mem_append.mpr (Or.inl hc))
  have hins : ainsert (purgeExpired now st.reserved_ports) p now =
      purgeExpired now st.reserved_ports ++ [(p, now)] :=
    ainsert_eq_append _ _ _ (fun e he =>
      beq_eq_false_of_ne (fun hc => hnp (hc ▸ List.mem_map_of_mem _ he)))
  refine ⟨h1, ?_, ?_, h4⟩
  · show (rkeys (ainsert (purgeExpired now st.reserved_ports) p now)).Nodup
    rw [hins]
    unfold rkeys
    rw [List.map_append]
    simp only [List.nodup_append]
    refine ⟨h2, by simp, ?_⟩
    intro a ha
    simp only [List.map_cons, List.map_nil, List.mem_singleton]
    intro hc
    exact hnp (hc ▸ ha)
  · intro q hq hqr
    have hqr2 : q ∈ rkeys (ainsert (purgeExpired now st.reserved_ports) p now) := hqr
    rw [hins] at hqr2
    unfold rkeys at hqr2
    rw [List.map_append] at hqr2
    rcases List.mem_append.mp hqr2 with hm | hm
    · exact h3 q hq hm
    · simp only [List.map_cons, List.map_nil, List.mem_singleton] at hm
      exact hni (hm ▸ hq)

theorem PoolInv_promote (st1 : ManagerState) (port : Nat) (proc : IDAProcess)
    (h : PoolInv st1) (hfresh : port ∉ pkeys st1.ida_processes)
    (hbin : proc.binary_path ∉ targets st1.ida_processes) :
    PoolInv { st1 with
      ida_processes := ainsert st1.ida_processes port proc,
      reserved_ports := aerase st1.reserved_ports port } := by
  obtain ⟨h1, h2, h3, h4⟩ := h
  have hins : ainsert st1.ida_processes port proc = st1.ida_processes ++ [(port, proc)] :=
    ainsert_eq_append _ _ _ (fun e he =>
      beq_eq_false_of_ne (fun hc => hfresh (hc ▸ List.mem_map_of_mem _ he)))
  refine ⟨?_, ?_, ?_, ?_⟩
  · show (pkeys (ainsert st1.ida_processes port proc)).Nodup
    rw [hins]
    unfold pkeys
    rw [List.map_append]
    simp only [List.nodup_append]
    refine ⟨h1, by simp, ?_⟩
    intro a ha
    simp only [List.map_cons, List.map_nil, List.mem_singleton]
    intro hc
    exact hfresh (hc ▸ ha)
  · show (rkeys (aerase st1.reserved_ports port)).Nodup
    exact List.Nodup.sublist ((List.filter_sublist _).map _) h2
  · intro q hq hqr
    have hq2 : q ∈ pkeys (ainsert st1.ida_processes port proc) := hq
    rw [hins] at hq2
    unfold pkeys at hq2
    rw [List.map_append] at hq2
    have hqr2 : q ∈ rkeys (aerase st1.reserved_ports port) := hqr
    obtain ⟨e, he, hek⟩ := List.mem_map.mp hqr2
    have hemem := List.mem_of_mem_filter he
    have hne : (e.1 == port) = false := by simpa using List.of_mem_filter he
    rcases List.mem_append.mp hq2 with hm | hm
    · exact h3 q hm (hek ▸ List.mem_map_of_mem _ hemem)
    · simp only [List.map_cons, List.map_nil, List.mem_singleton] at hm
      rw [hm] at hek
      rw [hek] at hne
      simp at hne
  · show (targets (ainsert st1.ida_processes port proc)).Nodup
    rw [hins]
    unfold targets
    rw [List.map_append]
    simp only [List.nodup_append]
    refine ⟨h4, by simp, ?_⟩
    intro a ha
    simp only [List.map_cons, List.map_nil, List.mem_singleton]
    intro hc
    exact hbin (hc ▸ ha)

theorem targets_not_mem_of_get_none (st : ManagerState) (binary : String)
    (hg : get_process_for_binary st binary = none) :
    (some binary) ∉ targets st.ida_processes := by
  intro hc
  obtain ⟨e, he, heq⟩ := List.mem_map.mp hc
  unfold get_process_for_binary at hg
  have hf := List.find?_eq_none.mp hg e.2 (List.mem_map_of_mem _ he)
  apply hf
  simp [heq]

theorem PoolInv_fallback (penv : PortEnv) (senv : StopEnv) (st1 : ManagerState)
    (h : PoolInv st1) : PoolInv (find_fallback penv senv st1).2 := by
  unfold find_fallback
  split
  · split
    · exact h
    · split
      · exact h
      · rename_i st2 evs2 heq2
        rw [stop_ida_server_locked] at heq2
        cases heq2
  · exact h

theorem PoolInv_find (penv : PortEnv) (senv : StopEnv) (st : ManagerState)
    (h : PoolInv st) : PoolInv (find_available_port penv senv false st).2 := by
  cases hscan : find_scan penv { st with
      reserved_ports := purgeExpired penv.now st.reserved_ports } with
  | none =>
    have heq : find_available_port penv senv false st =
        find_fallback penv senv { st with
          reserved_ports := purgeExpired penv.now st.reserved_ports } := by
      unfold find_available_port
      rw [if_neg Bool.false_ne_true]
      dsimp only
      rw [hscan]
      rfl
    rw [heq]
    exact PoolInv_fallback penv senv _ (PoolInv_purge st penv.now h)
  | some p =>
    have heq : find_available_port penv senv false st =
        (PortResult.found p, { st with
          reserved_ports := ainsert (purgeExpired penv.now st.reserved_ports) p penv.now }) := by
      unfold find_available_port
      rw [if_neg Bool.false_ne_true]
      dsimp only
      rw [hscan]
      rfl
    rw [heq]
    apply PoolInv_reserve st penv.now p h
    have hpred := List.find?_some (by
      unfold find_scan at hscan
      exact hscan)
    simp only [] at hpred
    rw [Bool.and_eq_true] at hpred
    have hcf : ((usedPorts { st with
        reserved_ports := purgeExpired penv.now st.reserved_ports }).contains p) = false := by
      simpa using hpred.1
    simpa using hcf

theorem PoolInv_stop (senv : StopEnv) (st : ManagerState) (port : Nat) (h : PoolInv st) :
    match stop_ida_server senv false st port with
    | Res.ok (st', _evs) => PoolInv st'
    | Res.deadlock => True := by
  cases hf : st.ida_processes.find? (fun e => e.1 == port) with
  | none =>
    have hp : alookup st.ida_processes port = none := by
      unfold alookup; rw [hf]; rfl
    unfold stop_ida_server
    rw [hp]
    exact h
  | some e =>
    have hp : alookup st.ida_processes port = some e.2 := by
      unfold alookup; rw [hf]; rfl
    unfold stop_ida_server finishStop
    rw [hp]
    cases hA : senv.aliveAfterGrace e.2.pid <;>
      cases hT : senv.sigtermRaises e.2.pid <;>
        cases hTw : senv.termWithinTimeout e.2.pid <;>
          cases hK : senv.sigkillRaises e.2.pid <;>
            cases hR : senv.portReleases port <;>
              simp [hA, hT, hTw, hK, hR] <;>
              first
                | exact h
                | exact PoolInv_aerase_active st port h

theorem PoolInv_spawn (eenv : EnsureEnv) (ip sp : String) (w : World) (st1 : ManagerState)
    (binary : String) (port : Nat) (h : PoolInv st1)
    (hfresh : port ∉ pkeys st1.ida_processes)
    (hbin : (some binary) ∉ targets st1.ida_processes) :
    match ensure_spawn eenv ip sp w st1 binary port with
    | AttemptRes.done r => PoolInv r.2.1
    | AttemptRes.retry _w2 stR _evs => PoolInv stR := by
  unfold ensure_spawn
  dsimp only
  cases hh : eenv.handshake w.spawnCount with
  | true =>
    exact PoolInv_promote st1 port ⟨w.nextPid, port, some binary, eenv.now⟩ h hfresh hbin
  | false =>
    cases hidb : fsExists w (binary ++ ".i64") with
    | true =>
      cases hr : eenv.renameOk with
      | true => exact h
      | false => exact PoolInv_aerase_reserved st1 port h
    | false => exact PoolInv_aerase_reserved st1 port h

theorem PoolInv_attempt (eenv : EnsureEnv) (ip sp : String) (w : World) (st : ManagerState)
    (binary : String) (h : PoolInv st) :
    match ensure_attempt eenv ip sp w st binary with
    | AttemptRes.done r => PoolInv r.2.1
    | AttemptRes.retry _w2 st1 _evs => PoolInv st1 := by
  cases hex : (!(fsExists w binary) && !(fsExists w (binary ++ ".i64"))) with
  | true =>
    have heq : ensure_attempt eenv ip sp w st binary =
        AttemptRes.done (EnsureOutcome.failure FailKind.fileNotFound, st, w, []) := by
      unfold ensure_attempt
      rw [hex]
      rfl
    rw [heq]
    exact h
  | false =>
    cases hgp : get_process_for_binary st binary with
    | some p =>
      have heq : ensure_attempt eenv ip sp w st binary =
          AttemptRes.done (EnsureOutcome.success { p with last_used := eenv.now },
            { st with
              ida_processes := refresh_binary_proc eenv.now st.ida_processes binary },
            w, []) := by
        unfold ensure_attempt
        rw [hex, hgp]
        rfl
      rw [heq]
      exact PoolInv_refresh st eenv.now binary h
    | none =>
      rcases hfa : find_available_port ⟨eenv.now, eenv.osPortInUse⟩ eenv.stopEnv false st
        with ⟨res, st1⟩
      have hInv1 : PoolInv st1 := by
        have hx := PoolInv_find ⟨eenv.now, eenv.osPortInUse⟩ eenv.stopEnv st h
        rw [hfa] at hx
        exact hx
      cases res with
      | deadlock =>
        have heq : ensure_attempt eenv ip sp w st binary =
            AttemptRes.done (EnsureOutcome.deadlock, st1, w, []) := by
          unfold ensure_attempt
          rw [hex, hgp, hfa]
          rfl
        rw [heq]
        exact hInv1
      | typeError =>
        have heq : ensure_attempt eenv ip sp w st binary =
            AttemptRes.done (EnsureOutcome.failure FailKind.internalError, st1, w, []) := by
          unfold ensure_attempt
          rw [hex, hgp, hfa]
          rfl
        rw [heq]
        exact hInv1
      | exhausted =>
        have heq : ensure_attempt eenv ip sp w st binary =
            AttemptRes.done (EnsureOutcome.failure FailKind.portUnavailable, st1, w, []) := by
          unfold ensure_attempt
          rw [hex, hgp, hfa]
          rfl
        rw [heq]
        exact hInv1
      | found p =>
        have heq : ensure_attempt eenv ip sp w st binary =
            ensure_spawn eenv ip sp w st1 binary p := by
          unfold ensure_attempt
          rw [hex, hgp, hfa]
          rfl
        rw [heq]
        obtain ⟨hfind, hst1⟩ := find_available_port_found _ _ _ _ _ hfa
        have hpred := List.find?_some hfind
        simp only [] at hpred
        rw [Bool.and_eq_true] at hpred
        have hcont : p ∉ usedPorts { st with
            reserved_ports := purgeExpired eenv.now st.reserved_ports } := by
          simpa using hpred.1
        have hfresh : p ∉ pkeys st1.ida_processes := by
          rw [hst1]
          intro hc
          exact hcont (List.mem_append.mpr (Or.inl hc))
        have hbin : (some binary) ∉ targets st1.ida_processes := by
          rw [hst1]
          exact targets_not_mem_of_get_none st binary hgp
        exact PoolInv_spawn eenv ip sp w st1 binary p hInv1 hfresh hbin

theorem PoolInv_ensure (eenv : EnsureEnv) (ip sp : String) :
    ∀ (fuel : Nat) (w : World) (st : ManagerState) (binary : String), PoolInv st →
      PoolInv (ensure_binary_loaded eenv ip sp fuel w st binary).2.1 := by
  intro fuel
  induction fuel with
  | zero => intro w st binary h; exact h
  | succ n ih =>
    intro w st binary h
    have hatt := PoolInv_attempt eenv ip sp w st binary h
    cases hA : ensure_attempt eenv ip sp w st binary with
    | done r =>
      rw [hA] at hatt
      have heq : ensure_binary_loaded eenv ip sp (n + 1) w st binary = r := by
        unfold ensure_binary_loaded
        rw [hA]
      rw [heq]
      exact hatt
    | retry w2 st1 evs =>
      rw [hA] at hatt
      have heq : ensure_binary_loaded eenv ip sp (n + 1) w st binary =
          ((ensure_binary_loaded eenv ip sp n w2 st1 binary).1,
           (ensure_binary_loaded eenv ip sp n w2 st1 binary).2.1,
           (ensure_binary_loaded eenv ip sp n w2 st1 binary).2.2.1,
           evs ++ (ensure_binary_loaded eenv ip sp n w2 st1 binary).2.2.2) := by
        conv_lhs => unfold ensure_binary_loaded
        rw [hA]
      rw [heq]
      exact ih w2 st1 binary hatt

/-- C4: the bookkeeping invariant — at most one worker per port, at most one
reservation per port, no port both reserved and active, no two active
workers bound to the same target — is preserved by every operation:
`_find_available_port` (reserve, including its purge and all failure paths),
`stop_ida_server` (terminate, on every completing path), and
`_ensure_binary_loaded` (which covers reserve, spawn, promote-to-active and
the quarantine retry), under sequential execution. -/
theorem pool_port_invariants_preserved (penv : PortEnv) (senv : StopEnv) (eenv : EnsureEnv)
    (ip sp : String) (fuel : Nat) (w : World) (st : ManagerState) (binary : String)
    (port : Nat) (h : PoolInv st) :
    PoolInv (find_available_port penv senv false st).2 ∧
    (match stop_ida_server senv false st port with
     | Res.ok (st', _evs) => PoolInv st'
     | Res.deadlock => True) ∧
    PoolInv (ensure_binary_loaded eenv ip sp fuel w st binary).2.1 :=
  ⟨PoolInv_find penv senv st h, PoolInv_stop senv st port h,
    PoolInv_ensure eenv ip sp fuel w st binary h⟩

theorem pool_port_invariants_preserved_witness :
    PoolInv stOne ∧
    PoolInv (find_available_port peC2 seNice false stOne).2 ∧
    PoolInv (ensure_binary_loaded eenvOk "/opt/idat" "/s.py" 2 wC3 stOne "/t/x").2.1 :=
  ⟨by decide,
    (pool_port_invariants_preserved peC2 seNice eenvOk "/opt/idat" "/s.py" 2 wC3 stOne
      "/t/x" 7001 (by decide)).1,
    (pool_port_invariants_preserved peC2 seNice eenvOk "/opt/idat" "/s.py" 2 wC3 stOne
      "/t/x" 7001 (by decide)).2.2⟩
